import Mathlib

/-!
Verification development for the gridcapacity repository: a shallow embedding
of the capacity-analysis, contingency-analysis and violations-classification
core, with theorems checking the stated properties of these functions.

Python complex MVA values are embedded as pairs of rationals; the external
power-flow solver is embedded as oracle functions describing the outcome of
each probe; `enum.Flag` value sets are embedded as natural-number bitmasks
with the same bit assignment as the Python `Violations` flag.
-/

namespace Gridcapacity

/-- Complex power in MVA (`complex` in the Python source): real (active, MW)
and imaginary (reactive, MVAr) components. -/
structure Mva where
  re : ℚ
  im : ℚ
deriving DecidableEq, Repr

instance : Add Mva := ⟨fun a b => ⟨a.re + b.re, a.im + b.im⟩⟩

/-- Division of a complex power by two, as in `(lower + upper) / 2`. -/
def Mva.half (a : Mva) : Mva := ⟨a.re / 2, a.im / 2⟩

/-- The zero complex power `0j`. -/
def Mva.zero : Mva := ⟨0, 0⟩

theorem Mva.add_def (a b : Mva) : a + b = ⟨a.re + b.re, a.im + b.im⟩ := rfl

/-- `Violations` flag sets from `gridcapacity/violations_analysis.py`,
embedded as bitmasks with the `enum.auto` bit assignment. -/
abbrev Violations := Nat

namespace Violations

def NO_VIOLATIONS : Violations := 0
def NOT_CONVERGED : Violations := 1
def BUS_OVERVOLTAGE : Violations := 2
def BUS_UNDERVOLTAGE : Violations := 4
def BRANCH_LOADING : Violations := 8
def TRAFO_LOADING : Violations := 16
def TRAFO_3W_LOADING : Violations := 32
def SWING_BUS_LOADING : Violations := 64

end Violations

/-- `ViolationsLimits` from `gridcapacity/violations_analysis.py`.  The
`branch_rate` / `trafo_rate` fields of the Python dataclass only select which
loading column the backend reads; the loading lists of `SolvedCase` below are
the values read for the requested rate, so the rate names do not appear here. -/
structure ViolationsLimits where
  max_bus_voltage_pu : ℚ
  min_bus_voltage_pu : ℚ
  max_branch_loading_pct : ℚ
  max_trafo_loading_pct : ℚ
  max_swing_bus_power_p_mw : ℚ
deriving DecidableEq, Repr

/-- The electrical state queried from the external solver after one solve:
convergence flag and the per-element quantities the classifier reads. -/
structure SolvedCase where
  converged : Bool
  busVoltagesPu : List ℚ
  branchLoadingsPct : List ℚ
  trafoLoadingsPct : List ℚ
  trafo3wLoadingsPct : List ℚ
  swingBusPowersPMw : List ℚ
deriving DecidableEq, Repr

/-- `GenericBuses.get_overvoltage_indexes`: indexes of buses whose p.u.
voltage strictly exceeds the limit. -/
def get_overvoltage_indexes (puVoltages : List ℚ) (maxBusVoltage : ℚ) : List Nat :=
  ((puVoltages.enum.filter fun p => maxBusVoltage < p.2).map Prod.fst)

/-- `GenericBuses.get_undervoltage_indexes`: indexes of buses whose p.u.
voltage is strictly below the limit. -/
def get_undervoltage_indexes (puVoltages : List ℚ) (minBusVoltage : ℚ) : List Nat :=
  ((puVoltages.enum.filter fun p => p.2 < minBusVoltage).map Prod.fst)

/-- `get_overloaded_indexes` shared by branches, transformers and swing buses:
indexes of elements whose loading strictly exceeds the limit. -/
def get_overloaded_indexes (loadings : List ℚ) (maxLoading : ℚ) : List Nat :=
  ((loadings.enum.filter fun p => maxLoading < p.2).map Prod.fst)

/-- `check_violations` from `gridcapacity/violations_analysis.py`: classify a
solved case against the thresholds.  Returns `NOT_CONVERGED` alone when the
solver did not converge; otherwise ORs together the flag of every category
whose violating-index list is nonempty, in the order of the source.  (The
`ViolationsStats.append_violations` calls of the source are reporting side
effects and do not influence the returned flag set.) -/
def check_violations (limits : ViolationsLimits) (s : SolvedCase) : Violations :=
  if !s.converged then
    Violations.NO_VIOLATIONS ||| Violations.NOT_CONVERGED
  else
    let v1 := if get_overvoltage_indexes s.busVoltagesPu limits.max_bus_voltage_pu ≠ []
      then Violations.BUS_OVERVOLTAGE else 0
    let v2 := if get_undervoltage_indexes s.busVoltagesPu limits.min_bus_voltage_pu ≠ []
      then Violations.BUS_UNDERVOLTAGE else 0
    let v3 := if get_overloaded_indexes s.branchLoadingsPct limits.max_branch_loading_pct ≠ []
      then Violations.BRANCH_LOADING else 0
    let v4 := if get_overloaded_indexes s.trafoLoadingsPct limits.max_trafo_loading_pct ≠ []
      then Violations.TRAFO_LOADING else 0
    let v5 := if get_overloaded_indexes s.trafo3wLoadingsPct limits.max_trafo_loading_pct ≠ []
      then Violations.TRAFO_3W_LOADING else 0
    let v6 := if get_overloaded_indexes s.swingBusPowersPMw limits.max_swing_bus_power_p_mw ≠ []
      then Violations.SWING_BUS_LOADING else 0
    Violations.NO_VIOLATIONS ||| v1 ||| v2 ||| v3 ||| v4 ||| v5 ||| v6

theorem enum_filter_map_ne_nil (l : List ℚ) (f : ℚ → Bool) :
    ((l.enum.filter fun p => f p.2).map Prod.fst) ≠ [] ↔ ∃ x ∈ l, f x := by
  have key : ((l.enum.filter fun p => f p.2).map Prod.fst) ≠ [] ↔
      ∃ p ∈ l.enum, f p.2 = true := by
    simp only [ne_eq, List.map_eq_nil_iff, List.filter_eq_nil_iff]
    push_neg
    rfl
  rw [key]
  constructor
  · rintro ⟨p, hp, hf⟩
    refine ⟨p.2, ?_, hf⟩
    have := List.mem_map_of_mem Prod.snd hp
    rwa [List.enum_map_snd] at this
  · rintro ⟨x, hx, hf⟩
    have hx2 : x ∈ l.enum.map Prod.snd := by rw [List.enum_map_snd]; exact hx
    obtain ⟨p, hp, rfl⟩ := List.mem_map.mp hx2
    exact ⟨p, hp, hf⟩

theorem get_overloaded_indexes_ne_nil (loadings : List ℚ) (maxLoading : ℚ) :
    get_overloaded_indexes loadings maxLoading ≠ [] ↔ ∃ l ∈ loadings, maxLoading < l := by
  rw [get_overloaded_indexes, enum_filter_map_ne_nil loadings (fun x => maxLoading < x)]
  simp

theorem get_overvoltage_indexes_ne_nil (vs : List ℚ) (m : ℚ) :
    get_overvoltage_indexes vs m ≠ [] ↔ ∃ v ∈ vs, m < v :=
  get_overloaded_indexes_ne_nil vs m

theorem get_undervoltage_indexes_ne_nil (vs : List ℚ) (m : ℚ) :
    get_undervoltage_indexes vs m ≠ [] ↔ ∃ v ∈ vs, v < m := by
  rw [get_undervoltage_indexes, enum_filter_map_ne_nil vs (fun x => x < m)]
  simp

/-- C3: if the solver reports non-convergence the classifier result is exactly
`NOT_CONVERGED` with no other flag; otherwise `NOT_CONVERGED` is absent and
each of the six category flags is present in the result exactly when its own
strict-inequality threshold test triggers, independently of the others. -/
theorem check_violations_flag_algebra (limits : ViolationsLimits) (s : SolvedCase) :
    (s.converged = false → check_violations limits s = Violations.NOT_CONVERGED) ∧
    (s.converged = true →
      check_violations limits s &&& Violations.NOT_CONVERGED = 0 ∧
      (check_violations limits s &&& Violations.BUS_OVERVOLTAGE ≠ 0 ↔
        ∃ v ∈ s.busVoltagesPu, limits.max_bus_voltage_pu < v) ∧
      (check_violations limits s &&& Violations.BUS_UNDERVOLTAGE ≠ 0 ↔
        ∃ v ∈ s.busVoltagesPu, v < limits.min_bus_voltage_pu) ∧
      (check_violations limits s &&& Violations.BRANCH_LOADING ≠ 0 ↔
        ∃ l ∈ s.branchLoadingsPct, limits.max_branch_loading_pct < l) ∧
      (check_violations limits s &&& Violations.TRAFO_LOADING ≠ 0 ↔
        ∃ l ∈ s.trafoLoadingsPct, limits.max_trafo_loading_pct < l) ∧
      (check_violations limits s &&& Violations.TRAFO_3W_LOADING ≠ 0 ↔
        ∃ l ∈ s.trafo3wLoadingsPct, limits.max_trafo_loading_pct < l) ∧
      (check_violations limits s &&& Violations.SWING_BUS_LOADING ≠ 0 ↔
        ∃ p ∈ s.swingBusPowersPMw, limits.max_swing_bus_power_p_mw < p)) := by
  constructor
  · intro h
    simp [check_violations, h, Violations.NOT_CONVERGED, Violations.NO_VIOLATIONS]
  · intro h
    rw [← get_overvoltage_indexes_ne_nil, ← get_undervoltage_indexes_ne_nil,
      ← get_overloaded_indexes_ne_nil, ← get_overloaded_indexes_ne_nil,
      ← get_overloaded_indexes_ne_nil, ← get_overloaded_indexes_ne_nil]
    simp only [check_violations, h, Bool.not_true, Bool.false_eq_true, if_false]
    by_cases h1 : get_overvoltage_indexes s.busVoltagesPu limits.max_bus_voltage_pu ≠ [] <;>
      by_cases h2 : get_undervoltage_indexes s.busVoltagesPu limits.min_bus_voltage_pu ≠ [] <;>
      by_cases h3 : get_overloaded_indexes s.branchLoadingsPct limits.max_branch_loading_pct ≠ [] <;>
      by_cases h4 : get_overloaded_indexes s.trafoLoadingsPct limits.max_trafo_loading_pct ≠ [] <;>
      by_cases h5 : get_overloaded_indexes s.trafo3wLoadingsPct limits.max_trafo_loading_pct ≠ [] <;>
      by_cases h6 : get_overloaded_indexes s.swingBusPowersPMw limits.max_swing_bus_power_p_mw ≠ [] <;>
      simp [h1, h2, h3, h4, h5, h6, Violations.NOT_CONVERGED, Violations.NO_VIOLATIONS,
        Violations.BUS_OVERVOLTAGE, Violations.BUS_UNDERVOLTAGE, Violations.BRANCH_LOADING,
        Violations.TRAFO_LOADING, Violations.TRAFO_3W_LOADING, Violations.SWING_BUS_LOADING] <;>
      decide

/-- C3 witness: the theorem applied to a non-converged case and to a converged
case with one overvoltage reading. -/
theorem check_violations_flag_algebra_witness :
    (check_violations ⟨11/10, 9/10, 100, 100, 1000⟩ ⟨false, [], [], [], [], []⟩ =
      Violations.NOT_CONVERGED) ∧
    (check_violations ⟨11/10, 9/10, 100, 100, 1000⟩ ⟨true, [23/20], [], [], [], []⟩ &&&
      Violations.BUS_OVERVOLTAGE ≠ 0) := by
  refine ⟨(check_violations_flag_algebra ⟨11/10, 9/10, 100, 100, 1000⟩
    ⟨false, [], [], [], [], []⟩).1 rfl, ?_⟩
  exact ((check_violations_flag_algebra ⟨11/10, 9/10, 100, 100, 1000⟩
    ⟨true, [23/20], [], [], [], []⟩).2 rfl).2.1.mpr ⟨23/20, by simp, by norm_num⟩

/-- `Branch` from `pssetools/subsystems.py`: identity is the connected bus
numbers plus a parallel-circuit id. -/
structure Branch where
  from_number : Int
  to_number : Int
  branch_id : String
deriving DecidableEq, Repr

/-- `Trafo` (2-winding transformer) from `pssetools/subsystems.py`. -/
structure Trafo where
  from_number : Int
  to_number : Int
  trafo_id : String
deriving DecidableEq, Repr

/-- `LimitingSubsystem = Union[None, Branch, Trafo]`; the `None` case is the
`Option.none` of the `ss` field below. -/
inductive LimitingSubsystem where
  | branch (b : Branch)
  | trafo (t : Trafo)
deriving DecidableEq, Repr

/-- `LimitingFactor` from `pssetools/contingency_analysis.py`. -/
structure LimitingFactor where
  v : Violations
  ss : Option LimitingSubsystem
deriving DecidableEq, Repr

/-- `ContingencyScenario` from `pssetools/contingency_analysis.py`. -/
structure ContingencyScenario where
  branches : List Branch
  trafos : List Trafo
deriving DecidableEq, Repr

/-- Oracle describing the mutable solver-owned network during contingency
analysis: per element, whether it is currently enabled, whether the backend
disable call succeeds, and which `Violations` value `check_violations` returns
(with contingency limits) while the element is scoped-disabled. -/
structure ContingencyEnv where
  branchEnabled : Branch → Bool
  trafoEnabled : Trafo → Bool
  branchCanDisable : Branch → Bool
  trafoCanDisable : Trafo → Bool
  branchViolations : Branch → Violations
  trafoViolations : Trafo → Violations

/-- The branch loop of `get_contingency_limiting_factor`: walks the scenario's
branches in stored order, skipping branches that are not enabled, OR-ing each
classifier result into the running `violations` value and returning at the
first one that differs from `NO_VIOLATIONS`.  `Sum.inr` is the early return,
`Sum.inl` the accumulator carried into the transformer loop. -/
def contingencyBranchesLoop (env : ContingencyEnv) :
    List Branch → Violations → Violations ⊕ LimitingFactor
  | [], violations => .inl violations
  | b :: rest, violations =>
    if env.branchEnabled b then
      let violations' := violations ||| env.branchViolations b
      if violations' ≠ Violations.NO_VIOLATIONS then .inr ⟨violations', some (.branch b)⟩
      else contingencyBranchesLoop env rest violations'
    else contingencyBranchesLoop env rest violations

/-- The transformer loop of `get_contingency_limiting_factor`, continuing with
the `violations` value accumulated by the branch loop. -/
def contingencyTrafosLoop (env : ContingencyEnv) :
    List Trafo → Violations → Violations ⊕ LimitingFactor
  | [], violations => .inl violations
  | t :: rest, violations =>
    if env.trafoEnabled t then
      let violations' := violations ||| env.trafoViolations t
      if violations' ≠ Violations.NO_VIOLATIONS then .inr ⟨violations', some (.trafo t)⟩
      else contingencyTrafosLoop env rest violations'
    else contingencyTrafosLoop env rest violations

/-- `get_contingency_limiting_factor` from `pssetools/contingency_analysis.py`:
branches first, then 2-winding transformers; `LimitingFactor(violations, None)`
when no scenario element produced a violation. -/
def get_contingency_limiting_factor (env : ContingencyEnv)
    (contingency_scenario : ContingencyScenario) : LimitingFactor :=
  match contingencyBranchesLoop env contingency_scenario.branches Violations.NO_VIOLATIONS with
  | .inr lf => lf
  | .inl violations =>
    match contingencyTrafosLoop env contingency_scenario.trafos violations with
    | .inr lf => lf
    | .inl violations' => ⟨violations', none⟩

/-- Restatement of the contingency checker in the spec's words: the first
still-enabled element of the scenario (branches in stored order first, then
transformers) whose scoped removal yields a non-`NO_VIOLATIONS` classification,
paired with that classification; `none` when no element produces a violation. -/
def specFirstViolatingElement (env : ContingencyEnv)
    (scenario : ContingencyScenario) : Option (Violations × LimitingSubsystem) :=
  match (scenario.branches.filter env.branchEnabled).find?
      (fun b => env.branchViolations b ≠ Violations.NO_VIOLATIONS) with
  | some b => some (env.branchViolations b, .branch b)
  | none =>
    match (scenario.trafos.filter env.trafoEnabled).find?
        (fun t => env.trafoViolations t ≠ Violations.NO_VIOLATIONS) with
    | some t => some (env.trafoViolations t, .trafo t)
    | none => none

theorem contingencyBranchesLoop_spec (env : ContingencyEnv) (bs : List Branch) :
    contingencyBranchesLoop env bs Violations.NO_VIOLATIONS =
      match (bs.filter env.branchEnabled).find?
          (fun b => env.branchViolations b ≠ Violations.NO_VIOLATIONS) with
      | some b => .inr ⟨env.branchViolations b, some (.branch b)⟩
      | none => .inl Violations.NO_VIOLATIONS := by
  induction bs with
  | nil => rfl
  | cons b rest ih =>
    by_cases hb : env.branchEnabled b
    · by_cases hv : env.branchViolations b ≠ Violations.NO_VIOLATIONS
      · have hv0 : env.branchViolations b ≠ 0 := hv
        simp [contingencyBranchesLoop, hb, hv0, List.filter_cons, List.find?,
          Violations.NO_VIOLATIONS]
      · push_neg at hv
        simp only [contingencyBranchesLoop, hb, if_true, hv, Violations.NO_VIOLATIONS,
          Nat.or_zero, Nat.zero_or] at ih ⊢
        simpa [List.filter_cons, hb, List.find?, hv, Violations.NO_VIOLATIONS] using ih
    · simp only [contingencyBranchesLoop, hb, if_false, Bool.false_eq_true] at ih ⊢
      simpa [List.filter_cons, hb] using ih

theorem contingencyTrafosLoop_spec (env : ContingencyEnv) (ts : List Trafo) :
    contingencyTrafosLoop env ts Violations.NO_VIOLATIONS =
      match (ts.filter env.trafoEnabled).find?
          (fun t => env.trafoViolations t ≠ Violations.NO_VIOLATIONS) with
      | some t => .inr ⟨env.trafoViolations t, some (.trafo t)⟩
      | none => .inl Violations.NO_VIOLATIONS := by
  induction ts with
  | nil => rfl
  | cons t rest ih =>
    by_cases ht : env.trafoEnabled t
    · by_cases hv : env.trafoViolations t ≠ Violations.NO_VIOLATIONS
      · have hv0 : env.trafoViolations t ≠ 0 := hv
        simp [contingencyTrafosLoop, ht, hv0, List.filter_cons, List.find?,
          Violations.NO_VIOLATIONS]
      · push_neg at hv
        simp only [contingencyTrafosLoop, ht, if_true, hv, Violations.NO_VIOLATIONS,
          Nat.or_zero, Nat.zero_or] at ih ⊢
        simpa [List.filter_cons, ht, List.find?, hv, Violations.NO_VIOLATIONS] using ih
    · simp only [contingencyTrafosLoop, ht, if_false, Bool.false_eq_true] at ih ⊢
      simpa [List.filter_cons, ht] using ih

/-- C2: the contingency checker walks the scenario's branches first and then
its 2-winding transformers in stored order, skips elements that are not
enabled, and returns at the first non-`NO_VIOLATIONS` classification paired
with the offending element; it returns `LimitingFactor(NO_VIOLATIONS, None)`
when no scenario element produces a violation. -/
theorem get_contingency_limiting_factor_first_failure (env : ContingencyEnv)
    (scenario : ContingencyScenario) :
    get_contingency_limiting_factor env scenario =
      match specFirstViolatingElement env scenario with
      | some (v, ss) => ⟨v, some ss⟩
      | none => ⟨Violations.NO_VIOLATIONS, none⟩ := by
  rw [get_contingency_limiting_factor, specFirstViolatingElement,
    contingencyBranchesLoop_spec]
  rcases hb : (scenario.branches.filter env.branchEnabled).find?
      (fun b => env.branchViolations b ≠ Violations.NO_VIOLATIONS) with _ | b
  · simp only [hb]
    rw [contingencyTrafosLoop_spec]
    rcases ht : (scenario.trafos.filter env.trafoEnabled).find?
        (fun t => env.trafoViolations t ≠ Violations.NO_VIOLATIONS) with _ | t <;>
      simp [ht]
  · simp [hb]

/-- `branch_is_not_critical` from `get_contingency_scenario`
(`pssetools/contingency_analysis.py`): a branch is kept for the scenario only
if it is enabled, the scoped disable succeeds (`is_disabled`), and the
classifier reports `NO_VIOLATIONS` with contingency limits while it is
disabled; every other path returns `False`. -/
def branch_is_not_critical (env : ContingencyEnv) (branch : Branch) : Bool :=
  if env.branchEnabled branch then
    if env.branchCanDisable branch then
      env.branchViolations branch == Violations.NO_VIOLATIONS
    else false
  else false

/-- `trafo_is_not_critical` from `get_contingency_scenario`. -/
def trafo_is_not_critical (env : ContingencyEnv) (trafo : Trafo) : Bool :=
  if env.trafoEnabled trafo then
    if env.trafoCanDisable trafo then
      env.trafoViolations trafo == Violations.NO_VIOLATIONS
    else false
  else false

/-- `get_contingency_scenario` from `pssetools/contingency_analysis.py`:
the tuples of not-critical branches and not-critical 2-winding transformers,
in population order. -/
def get_contingency_scenario (env : ContingencyEnv)
    (branches : List Branch) (trafos : List Trafo) : ContingencyScenario :=
  ⟨branches.filter (branch_is_not_critical env),
    trafos.filter (trafo_is_not_critical env)⟩

/-- C6: the built scenario contains exactly the elements of the population
that are enabled in the base case, can actually be disabled, and whose
individual scoped removal classifies as `NO_VIOLATIONS` under contingency
limits; in particular an element whose disable fails is silently excluded
(the builder still returns a scenario rather than an error). -/
theorem get_contingency_scenario_membership (env : ContingencyEnv)
    (branches : List Branch) (trafos : List Trafo) (b : Branch) (t : Trafo) :
    (b ∈ (get_contingency_scenario env branches trafos).branches ↔
      b ∈ branches ∧ env.branchEnabled b = true ∧ env.branchCanDisable b = true ∧
        env.branchViolations b = Violations.NO_VIOLATIONS) ∧
    (t ∈ (get_contingency_scenario env branches trafos).trafos ↔
      t ∈ trafos ∧ env.trafoEnabled t = true ∧ env.trafoCanDisable t = true ∧
        env.trafoViolations t = Violations.NO_VIOLATIONS) := by
  constructor
  · rw [get_contingency_scenario]
    simp only [List.mem_filter, branch_is_not_critical]
    by_cases he : env.branchEnabled b <;> by_cases hd : env.branchCanDisable b <;>
      simp [he, hd]
  · rw [get_contingency_scenario]
    simp only [List.mem_filter, trafo_is_not_critical]
    by_cases he : env.trafoEnabled t <;> by_cases hd : env.trafoCanDisable t <;>
      simp [he, hd]

/-- The early-exit test of the bisection loop in
`CapacityAnalyser.max_power_available_mva`
(`gridcapacity/capacity_analysis.py`):
`upper_limit_mva.real - lower_limit_mva.real < self._headroom_tolerance_p_mw`. -/
def convergenceStop (tol : ℚ) (lower upper : Mva) : Bool :=
  upper.re - lower.re < tol

/-- The `for _ in range(max_iterations - 1)` loop of
`CapacityAnalyser.max_power_available_mva`, with the scoped feasibility probe
`with temp_subsystem(middle_mva): self.feasibility_check()` embedded as the
oracle `feas` (the per-probe `CapacityAnalysisStats.update` and
`reload_case()` calls are reporting and solver-state side effects with no
influence on the returned value).  The fuel is the remaining loop range; the
third component threads the `limiting_factor` variable. -/
def bisectionLoop (feas : Mva → Bool × Option LimitingFactor) (tol : ℚ) :
    Nat → Mva → Mva → Option LimitingFactor → Mva × Option LimitingFactor
  | 0, lower, _, lf => (lower, lf)
  | fuel + 1, lower, upper, _ =>
    let middle := (lower + upper).half
    let probe := feas middle
    let lower' := if probe.1 then middle else lower
    let upper' := if probe.1 then upper else middle
    if convergenceStop tol lower' upper' then (lower', probe.2)
    else bisectionLoop feas tol fuel lower' upper' probe.2

/-- `CapacityAnalyser.max_power_available_mva`: initial scoped probe at the
full upper limit, returned immediately when feasible, otherwise the bisection
loop over `[0j, upper_limit_mva]` with `max_iterations - 1` rounds. -/
def max_power_available_mva (feas : Mva → Bool × Option LimitingFactor)
    (max_iterations : Nat) (tol : ℚ) (upper_limit_mva : Mva) :
    Mva × Option LimitingFactor :=
  let lower_limit_mva : Mva := ⟨0, 0⟩
  let probe := feas upper_limit_mva
  if probe.1 then (upper_limit_mva, probe.2)
  else bisectionLoop feas tol (max_iterations - 1) lower_limit_mva upper_limit_mva probe.2

/-- Instrumented restatement of the bisection loop: the ordered list of
feasibility probes it performs, each with the probed power and the probe's
outcome. -/
def bisectionProbes (feas : Mva → Bool × Option LimitingFactor) (tol : ℚ) :
    Nat → Mva → Mva → List (Mva × Bool × Option LimitingFactor)
  | 0, _, _ => []
  | fuel + 1, lower, upper =>
    let middle := (lower + upper).half
    let probe := feas middle
    let lower' := if probe.1 then middle else lower
    let upper' := if probe.1 then upper else middle
    (middle, probe) ::
      (if convergenceStop tol lower' upper' then []
       else bisectionProbes feas tol fuel lower' upper')

/-- The ordered list of all feasibility probes `max_power_available_mva`
performs: the initial upper-bound probe followed by the loop's probes. -/
def max_power_probes (feas : Mva → Bool × Option LimitingFactor)
    (max_iterations : Nat) (tol : ℚ) (upper_limit_mva : Mva) :
    List (Mva × Bool × Option LimitingFactor) :=
  let probe := feas upper_limit_mva
  (upper_limit_mva, probe) ::
    (if probe.1 then []
     else bisectionProbes feas tol (max_iterations - 1) ⟨0, 0⟩ upper_limit_mva)

theorem bisectionProbes_length_le (feas : Mva → Bool × Option LimitingFactor)
    (tol : ℚ) : ∀ (fuel : Nat) (lower upper : Mva),
    (bisectionProbes feas tol fuel lower upper).length ≤ fuel := by
  intro fuel
  induction fuel with
  | zero => intro lower upper; simp [bisectionProbes]
  | succ n ih =>
    intro lower upper
    rw [bisectionProbes]
    set middle := (lower + upper).half with hm
    set probe := feas middle with hp
    set lower' := if probe.1 then middle else lower with hl
    set upper' := if probe.1 then upper else middle with hu
    simp only [List.length_cons]
    by_cases hstop : convergenceStop tol lower' upper' = true
    · simp [hstop]
    · simp only [if_neg hstop]
      have := ih lower' upper'
      omega

/-- C1: the bisection search performs at most `max_iterations` feasibility
probes in total (the initial upper-bound probe plus at most
`max_iterations - 1` midpoint probes); the loop stops right after any probe
whose bound update brings `upper.real - lower.real` under the tolerance; and
the stopping test reads only the real components, never the imaginary ones. -/
theorem max_power_available_mva_probe_rounds
    (feas : Mva → Bool × Option LimitingFactor) (max_iterations : Nat) (tol : ℚ)
    (upper_limit_mva : Mva) (h : 1 ≤ max_iterations) :
    (max_power_probes feas max_iterations tol upper_limit_mva).length ≤ max_iterations ∧
    (∀ (fuel : Nat) (lower upper : Mva),
      convergenceStop tol
          (if (feas ((lower + upper).half)).1 then (lower + upper).half else lower)
          (if (feas ((lower + upper).half)).1 then upper else (lower + upper).half) = true →
      bisectionProbes feas tol (fuel + 1) lower upper =
        [((lower + upper).half, feas ((lower + upper).half))]) ∧
    (∀ (t a c : ℚ) (b d b' d' : ℚ),
      convergenceStop t ⟨a, b⟩ ⟨c, d⟩ = convergenceStop t ⟨a, b'⟩ ⟨c, d'⟩) := by
  refine ⟨?_, ?_, ?_⟩
  · rw [max_power_probes]
    split <;> simp only [List.length_cons, List.length_nil]
    · omega
    · have := bisectionProbes_length_le feas tol (max_iterations - 1) ⟨0, 0⟩ upper_limit_mva
      omega
  · intro fuel lower upper hstop
    rw [bisectionProbes]
    simp only [hstop, if_true]
  · intro t a c b d b' d'
    rfl

/-- C1 witness: with an always-infeasible oracle, `max_iterations = 3`,
tolerance 1 and upper limit `8 + 0j`, at most 3 probes are performed. -/
theorem max_power_available_mva_probe_rounds_witness :
    (1 : Nat) ≤ 3 ∧
    (max_power_probes (fun _ => (false, (none : Option LimitingFactor))) 3 1
      ⟨8, 0⟩).length ≤ 3 :=
  ⟨by decide,
    (max_power_available_mva_probe_rounds
      (fun _ => (false, (none : Option LimitingFactor))) 3 1 ⟨8, 0⟩ (by decide)).1⟩

/-- The `limiting_factor` variable at the end of a probe sequence: each
executed probe overwrites it with that probe's limiting factor; when no probe
was executed it keeps its previous value. -/
def lastLimitingFactor :
    List (Mva × Bool × Option LimitingFactor) → Option LimitingFactor →
      Option LimitingFactor
  | [], lf => lf
  | p :: rest, _ => lastLimitingFactor rest p.2.2

/-- The `lower_limit_mva` variable at the end of a probe sequence started at
`0j`: every feasible probe raises it to the probed power. -/
def finalLowerOfProbes (probes : List (Mva × Bool × Option LimitingFactor)) : Mva :=
  probes.foldl (fun lower p => if p.2.1 then p.1 else lower) ⟨0, 0⟩

theorem bisectionLoop_trace (feas : Mva → Bool × Option LimitingFactor) (tol : ℚ) :
    ∀ (fuel : Nat) (lower upper : Mva) (lf : Option LimitingFactor),
    bisectionLoop feas tol fuel lower upper lf =
      ((bisectionProbes feas tol fuel lower upper).foldl
          (fun l p => if p.2.1 then p.1 else l) lower,
        lastLimitingFactor (bisectionProbes feas tol fuel lower upper) lf) := by
  intro fuel
  induction fuel with
  | zero => intro lower upper lf; rfl
  | succ n ih =>
    intro lower upper lf
    rw [bisectionLoop, bisectionProbes]
    set middle := (lower + upper).half with hm
    set probe := feas middle with hp
    set lower' := if probe.1 then middle else lower with hl
    set upper' := if probe.1 then upper else middle with hu
    by_cases hstop : convergenceStop tol lower' upper' = true
    · simp only [hstop, if_true, List.foldl_cons, List.foldl_nil, lastLimitingFactor, ← hl]
    · simp only [if_neg hstop, List.foldl_cons, lastLimitingFactor, ← hl]
      exact ih lower' upper' probe.2

/-- A concrete limiting factor: branch loading on branch 1-2, circuit "1". -/
def exampleBranchLF : LimitingFactor :=
  ⟨Violations.BRANCH_LOADING, some (.branch ⟨1, 2, "1"⟩)⟩

/-- A concrete feasibility oracle: powers with real part at most 2 MW are
feasible, larger powers fail with `exampleBranchLF`. -/
def exampleInfeasibleAboveTwo (p : Mva) : Bool × Option LimitingFactor :=
  if p.re ≤ 2 then (true, none) else (false, some exampleBranchLF)

/-- C4: when the initial upper-bound probe is infeasible, the search returns
the final value of the lower bound together with the limiting factor of the
most recent probe executed; the concrete run in the second conjunct shows this
factor attached even though it was produced by an infeasible probe at `4 + 0j`,
strictly above the returned lower bound `0 + 0j`. -/
theorem max_power_available_mva_returns_last_lf
    (feas : Mva → Bool × Option LimitingFactor) (max_iterations : Nat) (tol : ℚ)
    (upper_limit_mva : Mva) (h : (feas upper_limit_mva).1 = false) :
    max_power_available_mva feas max_iterations tol upper_limit_mva =
      (finalLowerOfProbes (max_power_probes feas max_iterations tol upper_limit_mva),
        lastLimitingFactor (max_power_probes feas max_iterations tol upper_limit_mva)
          none) ∧
    (max_power_available_mva exampleInfeasibleAboveTwo 3 1 ⟨16, 0⟩ =
        (⟨0, 0⟩, some exampleBranchLF) ∧
      exampleInfeasibleAboveTwo ⟨4, 0⟩ = (false, some exampleBranchLF) ∧
      (0 : ℚ) < 4) := by
  constructor
  · rw [max_power_available_mva, max_power_probes, finalLowerOfProbes]
    simp only [h, Bool.false_eq_true, if_false, List.foldl_cons, lastLimitingFactor]
    rw [bisectionLoop_trace]
  · refine ⟨?_, ?_, by norm_num⟩
    · norm_num [max_power_available_mva, exampleInfeasibleAboveTwo, bisectionLoop,
        convergenceStop, Mva.half, Mva.add_def, exampleBranchLF]
    · norm_num [exampleInfeasibleAboveTwo, exampleBranchLF]

/-- C4 witness: the theorem applied to the concrete oracle
`exampleInfeasibleAboveTwo`, whose upper-bound probe at `16 + 0j` fails. -/
theorem max_power_available_mva_returns_last_lf_witness :
    (exampleInfeasibleAboveTwo ⟨16, 0⟩).1 = false ∧
    max_power_available_mva exampleInfeasibleAboveTwo 3 1 ⟨16, 0⟩ =
      (finalLowerOfProbes (max_power_probes exampleInfeasibleAboveTwo 3 1 ⟨16, 0⟩),
        lastLimitingFactor (max_power_probes exampleInfeasibleAboveTwo 3 1 ⟨16, 0⟩)
          none) := by
  have hfalse : (exampleInfeasibleAboveTwo ⟨16, 0⟩).1 = false := by
    norm_num [exampleInfeasibleAboveTwo]
  exact ⟨hfalse,
    (max_power_available_mva_returns_last_lf exampleInfeasibleAboveTwo 3 1 ⟨16, 0⟩
      hfalse).1⟩

/-- `Load` from `gridcapacity/backends/subsystems/load.py`. -/
structure Load where
  number : Int
  ex_name : String
  load_id : String
  mva_act : Mva
deriving DecidableEq, Repr

/-- `Machine` from `gridcapacity/backends/subsystems/gen.py`. -/
structure Machine where
  number : Int
  ex_name : String
  machine_id : String
  pq_gen : Mva
deriving DecidableEq, Repr

/-- The `while loads_available` loop of `BusBase.load_mva`
(`gridcapacity/backends/subsystems/bus.py`).  `psse` is the platform test
`sys.platform == "win32" and not envs.pandapower_backend`: on the PSSE backend
the loop breaks as soon as the current load's bus number is at most the target
bus number (before that load is accumulated); on the pandapower backend every
load record is visited. -/
def load_mva_loop (psse : Bool) (busNumber : Int) :
    List Load → Mva → Mva
  | [], acc => acc
  | l :: rest, acc =>
    if psse ∧ l.number ≤ busNumber then acc
    else load_mva_loop psse busNumber rest
      (if l.number = busNumber then acc + l.mva_act else acc)

/-- `BusBase.load_mva`: sum of the bus's loads, starting from `0j`. -/
def load_mva (psse : Bool) (loads : List Load) (busNumber : Int) : Mva :=
  load_mva_loop psse busNumber loads ⟨0, 0⟩

/-- The `while machines_available` loop of `BusBase.gen_mva`, with the same
PSSE early break. -/
def gen_mva_loop (psse : Bool) (busNumber : Int) :
    List Machine → Mva → Mva
  | [], acc => acc
  | m :: rest, acc =>
    if psse ∧ m.number ≤ busNumber then acc
    else gen_mva_loop psse busNumber rest
      (if m.number = busNumber then acc + m.pq_gen else acc)

/-- `BusBase.gen_mva`: sum of the bus's machines, starting from `0j`. -/
def gen_mva (psse : Bool) (machines : List Machine) (busNumber : Int) : Mva :=
  gen_mva_loop psse busNumber machines ⟨0, 0⟩

/-- Restatement of the seed step in the spec's words: the sum of the complex
powers of all load records whose bus number equals the target, obtained by
filtering the whole load population. -/
def specBusLoadSum (loads : List Load) (busNumber : Int) : Mva :=
  ⟨(((loads.filter fun l => l.number = busNumber).map fun l => l.mva_act.re).sum),
    (((loads.filter fun l => l.number = busNumber).map fun l => l.mva_act.im).sum)⟩

/-- Restatement of the machine seed step in the spec's words. -/
def specBusGenSum (machines : List Machine) (busNumber : Int) : Mva :=
  ⟨(((machines.filter fun m => m.number = busNumber).map fun m => m.pq_gen.re).sum),
    (((machines.filter fun m => m.number = busNumber).map fun m => m.pq_gen.im).sum)⟩

theorem load_mva_loop_eq_sum (busNumber : Int) (loads : List Load) :
    ∀ acc : Mva, load_mva_loop false busNumber loads acc =
      acc + specBusLoadSum loads busNumber := by
  induction loads with
  | nil =>
    intro acc
    simp only [load_mva_loop, specBusLoadSum, List.filter_nil, List.map_nil, List.sum_nil]
    cases acc
    simp [Mva.add_def]
  | cons l rest ih =>
    intro acc
    rw [load_mva_loop]
    simp only [Bool.false_eq_true, false_and, if_false]
    by_cases hn : l.number = busNumber
    · rw [if_pos hn, ih]
      simp only [specBusLoadSum, List.filter_cons, hn, if_true,
        List.map_cons, List.sum_cons]
      cases acc
      simp [Mva.add_def]
      constructor <;> ring
    · rw [if_neg hn, ih]
      simp [specBusLoadSum, List.filter_cons, hn]

theorem gen_mva_loop_eq_sum (busNumber : Int) (machines : List Machine) :
    ∀ acc : Mva, gen_mva_loop false busNumber machines acc =
      acc + specBusGenSum machines busNumber := by
  induction machines with
  | nil =>
    intro acc
    simp only [gen_mva_loop, specBusGenSum, List.filter_nil, List.map_nil, List.sum_nil]
    cases acc
    simp [Mva.add_def]
  | cons m rest ih =>
    intro acc
    rw [gen_mva_loop]
    simp only [Bool.false_eq_true, false_and, if_false]
    by_cases hn : m.number = busNumber
    · rw [if_pos hn, ih]
      simp only [specBusGenSum, List.filter_cons, hn, if_true,
        List.map_cons, List.sum_cons]
      cases acc
      simp [Mva.add_def]
      constructor <;> ring
    · rw [if_neg hn, ih]
      simp [specBusGenSum, List.filter_cons, hn]

/-- C8 counterexample: on the PSSE code path the claim fails at a one-element
load population: the bus 1 load of `5 + 0j` MVA is never accumulated because
the loop breaks at the first record whose bus number is at most the target,
so `load_mva` returns `0 + 0j` while the full filtered sum is `5 + 0j`. -/
theorem load_mva_psse_not_full_scan :
    load_mva true [⟨1, "BUS1", "1", ⟨5, 0⟩⟩] 1 = ⟨0, 0⟩ ∧
    specBusLoadSum [⟨1, "BUS1", "1", ⟨5, 0⟩⟩] 1 = ⟨5, 0⟩ ∧
    load_mva true [⟨1, "BUS1", "1", ⟨5, 0⟩⟩] 1 ≠
      specBusLoadSum [⟨1, "BUS1", "1", ⟨5, 0⟩⟩] 1 := by
  refine ⟨rfl, ?_, ?_⟩ <;> norm_num [specBusLoadSum, load_mva, load_mva_loop]

/-- C8 (amended): on the pandapower code path (`psse = false`) the seed step
equals the filtered sum over the whole load (machine) population, and the
result is invariant under any permutation of the records. -/
theorem load_mva_full_scan_order_independent (loads loads' : List Load)
    (machines machines' : List Machine) (busNumber : Int)
    (hl : loads.Perm loads') (hm : machines.Perm machines') :
    load_mva false loads busNumber = specBusLoadSum loads busNumber ∧
    gen_mva false machines busNumber = specBusGenSum machines busNumber ∧
    load_mva false loads busNumber = load_mva false loads' busNumber ∧
    gen_mva false machines busNumber = gen_mva false machines' busNumber := by
  have key : ∀ ls : List Load, load_mva false ls busNumber = specBusLoadSum ls busNumber := by
    intro ls
    rw [load_mva, load_mva_loop_eq_sum]
    rcases hs : specBusLoadSum ls busNumber with ⟨x, y⟩
    simp [Mva.add_def]
  have keyg : ∀ ms : List Machine, gen_mva false ms busNumber = specBusGenSum ms busNumber := by
    intro ms
    rw [gen_mva, gen_mva_loop_eq_sum]
    rcases hs : specBusGenSum ms busNumber with ⟨x, y⟩
    simp [Mva.add_def]
  refine ⟨key loads, keyg machines, ?_, ?_⟩
  · rw [key loads, key loads', specBusLoadSum, specBusLoadSum]
    have hp := hl.filter (fun l => decide (l.number = busNumber))
    rw [(hp.map fun l => l.mva_act.re).sum_eq, (hp.map fun l => l.mva_act.im).sum_eq]
  · rw [keyg machines, keyg machines', specBusGenSum, specBusGenSum]
    have hp := hm.filter (fun m => decide (m.number = busNumber))
    rw [(hp.map fun m => m.pq_gen.re).sum_eq, (hp.map fun m => m.pq_gen.im).sum_eq]

/-- C8 witness: the amended theorem applied to a two-record population and a
transposition of it. -/
theorem load_mva_full_scan_order_independent_witness :
    ([⟨1, "A", "1", ⟨3, 1⟩⟩, ⟨2, "B", "1", ⟨7, 2⟩⟩] : List Load).Perm
      [⟨2, "B", "1", ⟨7, 2⟩⟩, ⟨1, "A", "1", ⟨3, 1⟩⟩] ∧
    load_mva false [⟨1, "A", "1", ⟨3, 1⟩⟩, ⟨2, "B", "1", ⟨7, 2⟩⟩] 1 =
      specBusLoadSum [⟨1, "A", "1", ⟨3, 1⟩⟩, ⟨2, "B", "1", ⟨7, 2⟩⟩] 1 := by
  have hperm : ([⟨1, "A", "1", ⟨3, 1⟩⟩, ⟨2, "B", "1", ⟨7, 2⟩⟩] : List Load).Perm
      [⟨2, "B", "1", ⟨7, 2⟩⟩, ⟨1, "A", "1", ⟨3, 1⟩⟩] := List.Perm.swap _ _ _
  exact ⟨hperm,
    (load_mva_full_scan_order_independent _ _ [] [] 1 hperm (List.Perm.refl [])).1⟩

/-- `BusHeadroom` from `gridcapacity/capacity_analysis.py` (the `bus` field is
represented by its number). -/
structure BusHeadroom where
  busNumber : Int
  actual_load_mva : Mva
  actual_gen_mva : Mva
  load_avail_mva : Mva
  gen_avail_mva : Mva
  load_lf : Option LimitingFactor
  gen_lf : Option LimitingFactor
deriving DecidableEq, Repr

/-- `CapacityAnalyser.bus_headroom` (`gridcapacity/capacity_analysis.py`):
seed the actual load and generation from the record populations, run the load
bisection unconditionally, and run the generation bisection only when the bus
has nonzero actual generation and the load search did not collapse to `0j`.
The `reload_case()` calls after a `NOT_CONVERGED` collapse affect only solver
state, not the returned record; the `tqdm` progress update is display only. -/
def bus_headroom (psse : Bool) (loads : List Load) (machines : List Machine)
    (busNumber : Int) (feasLoad feasGen : Mva → Bool × Option LimitingFactor)
    (max_iterations : Nat) (tol : ℚ) (upper_load_limit_mva upper_gen_limit_mva : Mva) :
    BusHeadroom :=
  let actual_load_mva := load_mva psse loads busNumber
  let actual_gen_mva := gen_mva psse machines busNumber
  let loadResult := max_power_available_mva feasLoad max_iterations tol upper_load_limit_mva
  let genResult :=
    if actual_gen_mva ≠ Mva.zero ∧ loadResult.1 ≠ Mva.zero then
      max_power_available_mva feasGen max_iterations tol upper_gen_limit_mva
    else (Mva.zero, none)
  ⟨busNumber, actual_load_mva, actual_gen_mva, loadResult.1, genResult.1,
    loadResult.2, genResult.2⟩

/-- C5 counterexample: a bus with zero actual load and zero actual generation
whose load headroom is not 0 MVA: with an all-feasible oracle the load
bisection returns the full upper limit `100 + 48.43j`. -/
theorem bus_headroom_zero_bus_nonzero_load_avail :
    (bus_headroom false [] [] 1 (fun _ => (true, none)) (fun _ => (true, none))
        10 5 ⟨100, 4843/100⟩ ⟨100, 4843/100⟩).actual_load_mva = Mva.zero ∧
    (bus_headroom false [] [] 1 (fun _ => (true, none)) (fun _ => (true, none))
        10 5 ⟨100, 4843/100⟩ ⟨100, 4843/100⟩).actual_gen_mva = Mva.zero ∧
    (bus_headroom false [] [] 1 (fun _ => (true, none)) (fun _ => (true, none))
        10 5 ⟨100, 4843/100⟩ ⟨100, 4843/100⟩).load_avail_mva = ⟨100, 4843/100⟩ ∧
    (bus_headroom false [] [] 1 (fun _ => (true, none)) (fun _ => (true, none))
        10 5 ⟨100, 4843/100⟩ ⟨100, 4843/100⟩).load_avail_mva ≠ Mva.zero := by
  refine ⟨rfl, rfl, rfl, ?_⟩
  norm_num [bus_headroom, max_power_available_mva, load_mva, load_mva_loop,
    gen_mva, gen_mva_loop, Mva.zero]

/-- C5 (amended): for every bus whose actual generation is zero, the gen
headroom is 0 MVA with no limiting factor attached (so in particular no
contingency element); the load headroom is whatever the unconditional load
bisection returns and need not be 0 even when the actual load is zero. -/
theorem bus_headroom_zero_gen (psse : Bool) (loads : List Load)
    (machines : List Machine) (busNumber : Int)
    (feasLoad feasGen : Mva → Bool × Option LimitingFactor)
    (max_iterations : Nat) (tol : ℚ) (upper_load_limit_mva upper_gen_limit_mva : Mva)
    (hgen : gen_mva psse machines busNumber = Mva.zero) :
    (bus_headroom psse loads machines busNumber feasLoad feasGen max_iterations tol
        upper_load_limit_mva upper_gen_limit_mva).gen_avail_mva = Mva.zero ∧
    (bus_headroom psse loads machines busNumber feasLoad feasGen max_iterations tol
        upper_load_limit_mva upper_gen_limit_mva).gen_lf = none ∧
    (bus_headroom psse loads machines busNumber feasLoad feasGen max_iterations tol
        upper_load_limit_mva upper_gen_limit_mva).load_avail_mva =
      (max_power_available_mva feasLoad max_iterations tol upper_load_limit_mva).1 := by
  rw [bus_headroom]
  simp [hgen]

/-- C5 witness: the amended theorem applied to a bus with no machine records. -/
theorem bus_headroom_zero_gen_witness :
    gen_mva false [] 1 = Mva.zero ∧
    (bus_headroom false [] [] 1 (fun _ => (true, none)) (fun _ => (true, none))
        10 5 ⟨100, 4843/100⟩ ⟨100, 4843/100⟩).gen_avail_mva = Mva.zero :=
  ⟨rfl, (bus_headroom_zero_gen false [] [] 1 (fun _ => (true, none))
    (fun _ => (true, none)) 10 5 ⟨100, 4843/100⟩ ⟨100, 4843/100⟩ rfl).1⟩

/-- `CapacityAnalyser.check_base_case_violations` from
`gridcapacity/capacity_analysis.py`: raise `RuntimeError` exactly when the
base-case classifier result contains the `NOT_CONVERGED` flag (a truthy
`base_case_violations & Violations.NOT_CONVERGED`).  The `ok` payload is the
base-case violation flag set that
`ViolationsStats.register_base_case_violations()` then records for reporting
(modelled from the spec: that method's body is not part of the sources at
hand, only its call site is). -/
def check_base_case_violations (base_case_violations : Violations) :
    Except String Violations :=
  if base_case_violations &&& Violations.NOT_CONVERGED ≠ 0 then
    .error "The base case has violations"
  else
    .ok base_case_violations

/-- `CapacityAnalyser.check_base_case_violations` from the legacy
`pssetools/capacity_analysis.py`: raise `RuntimeError` on any result other
than `NO_VIOLATIONS`. -/
def pssetools_check_base_case_violations (base_case_violations : Violations) :
    Except String Unit :=
  if base_case_violations ≠ Violations.NO_VIOLATIONS then
    .error "The base case has violations"
  else
    .ok ()

/-- C7 counterexample: a converged base case with only `BUS_OVERVOLTAGE` set
does not carry `NOT_CONVERGED`, yet the `pssetools` analyser raises a
run-level error instead of recording it and proceeding. -/
theorem pssetools_base_case_raises_without_not_converged :
    Violations.BUS_OVERVOLTAGE &&& Violations.NOT_CONVERGED = 0 ∧
    pssetools_check_base_case_violations Violations.BUS_OVERVOLTAGE =
      .error "The base case has violations" := by
  constructor
  · decide
  · rfl

/-- C7 (amended): the `gridcapacity` analyser raises before any bisection
exactly when the base-case check reports `NOT_CONVERGED`, and otherwise
records the remaining base-case violation flags and proceeds; the legacy
`pssetools` analyser instead raises on any violation flag at all. -/
theorem check_base_case_violations_spec (v : Violations) :
    (v &&& Violations.NOT_CONVERGED ≠ 0 →
      check_base_case_violations v = .error "The base case has violations") ∧
    (v &&& Violations.NOT_CONVERGED = 0 → check_base_case_violations v = .ok v) ∧
    (v ≠ Violations.NO_VIOLATIONS →
      pssetools_check_base_case_violations v = .error "The base case has violations") ∧
    (v = Violations.NO_VIOLATIONS →
      pssetools_check_base_case_violations v = .ok ()) := by
  refine ⟨?_, ?_, ?_, ?_⟩ <;> intro h <;>
    simp [check_base_case_violations, pssetools_check_base_case_violations, h]

/-- C7 witness: the amended theorem applied to the converged base case with
`BUS_OVERVOLTAGE` (recorded, not raised, by the `gridcapacity` analyser) and
to a non-converged one. -/
theorem check_base_case_violations_spec_witness :
    (Violations.BUS_OVERVOLTAGE &&& Violations.NOT_CONVERGED = 0 ∧
      check_base_case_violations Violations.BUS_OVERVOLTAGE =
        .ok Violations.BUS_OVERVOLTAGE) ∧
    (Violations.NOT_CONVERGED &&& Violations.NOT_CONVERGED ≠ 0 ∧
      check_base_case_violations Violations.NOT_CONVERGED =
        .error "The base case has violations") :=
  ⟨⟨by decide, (check_base_case_violations_spec Violations.BUS_OVERVOLTAGE).2.1
      (by decide)⟩,
    ⟨by decide, (check_base_case_violations_spec Violations.NOT_CONVERGED).1
      (by decide)⟩⟩

/-- The queried network state owned by the external solver: the load and
machine record populations and the in-service status of every branch and
2-winding transformer. -/
structure NetworkState where
  loads : List Load
  machines : List Machine
  branchStatus : List (Branch × Bool)
  trafoStatus : List (Trafo × Bool)
deriving DecidableEq, Repr

/-- The reserved id of temporary loads and machines
(`TemporaryBusLoad.TEMP_LOAD_ID` / `TemporaryBusMachine.TEMP_MACHINE_ID`). -/
def TEMP_ID : String := "Tm"

/-- `TemporaryBusLoad.__enter__` (`gridcapacity/backends/subsystems/bus.py`):
`bus.add_load(load_mva)` creates a load with id `"Tm"` at the bus. -/
def temporaryBusLoadEnter (busNumber : Int) (load : Mva) (s : NetworkState) :
    NetworkState :=
  { s with loads := s.loads ++ [⟨busNumber, "", TEMP_ID, load⟩] }

/-- `TemporaryBusLoad.__exit__`: drop every load whose id is `"Tm"` (the
pandapower path drops all rows with that name; the PSSE path purges the
`"Tm"` load of the bus). -/
def temporaryBusLoadExit (s : NetworkState) : NetworkState :=
  { s with loads := s.loads.filter fun l => l.load_id ≠ TEMP_ID }

/-- `TemporaryBusMachine.__enter__`. -/
def temporaryBusMachineEnter (busNumber : Int) (gen : Mva) (s : NetworkState) :
    NetworkState :=
  { s with machines := s.machines ++ [⟨busNumber, "", TEMP_ID, gen⟩] }

/-- `TemporaryBusMachine.__exit__`: drop every machine whose id is `"Tm"`. -/
def temporaryBusMachineExit (s : NetworkState) : NetworkState :=
  { s with machines := s.machines.filter fun m => m.machine_id ≠ TEMP_ID }

/-- The disable step of `disable_trafo`: set the transformer's in-service
status to out of service. -/
def disableTrafoEnter (t : Trafo) (s : NetworkState) : NetworkState :=
  { s with trafoStatus := s.trafoStatus.map fun p => if p.1 = t then (p.1, false) else p }

/-- The `finally` step of `disable_trafo`: restore the transformer to in
service. -/
def disableTrafoExit (t : Trafo) (s : NetworkState) : NetworkState :=
  { s with trafoStatus := s.trafoStatus.map fun p => if p.1 = t then (p.1, true) else p }

/-- The disable step of `disable_branch`. -/
def disableBranchEnter (b : Branch) (s : NetworkState) : NetworkState :=
  { s with branchStatus := s.branchStatus.map fun p => if p.1 = b then (p.1, false) else p }

/-- The `finally` step of `disable_branch`. -/
def disableBranchExit (b : Branch) (s : NetworkState) : NetworkState :=
  { s with branchStatus := s.branchStatus.map fun p => if p.1 = b then (p.1, true) else p }

/-- The Python `with` statement over an enter/exit pair: the body observes the
mutated state and either returns a value or raises; the exit action runs on
both paths (`__exit__` / the context manager's `finally`). -/
def withScoped {E A : Type} (enter exitStep : NetworkState → NetworkState)
    (body : NetworkState → Except E A) (s : NetworkState) :
    Except E A × NetworkState :=
  let s' := enter s
  (body s', exitStep s')

theorem filter_append_singleton_of_all {α : Type} (p : α → Bool) (l : List α) (a : α)
    (hl : ∀ x ∈ l, p x = true) (ha : p a = false) :
    (l ++ [a]).filter p = l := by
  rw [List.filter_append]
  simp [List.filter_eq_self.mpr hl, List.filter_cons, ha]

theorem map_restore_of_all {α : Type} [DecidableEq α] (t : α) :
    ∀ l : List (α × Bool), (∀ p ∈ l, p.1 = t → p.2 = true) →
    ((l.map fun p => if p.1 = t then (p.1, false) else p).map
      fun p => if p.1 = t then (p.1, true) else p) = l := by
  intro l
  induction l with
  | nil => intro _; rfl
  | cons p rest ih =>
    intro h
    rcases p with ⟨a, b⟩
    have hrest := fun q hq => h q (List.mem_cons_of_mem _ hq)
    simp only [List.map_cons, ih hrest]
    by_cases hp : a = t
    · have hb : b = true := h (a, b) (List.mem_cons_self _ _) hp
      simp [hp, hb]
    · simp [hp]

/-- C9 counterexample: the scoped temporary-load round trip is not the
identity on every state: with a pre-existing load that already carries the
reserved temporary id `"Tm"`, the exit step deletes that pre-existing load
too, so the state after the `with` block differs from the state before it. -/
theorem temporary_bus_load_roundtrip_fails_on_preexisting_tm :
    (withScoped (temporaryBusLoadEnter 1 ⟨3, 0⟩) temporaryBusLoadExit
        (fun _ => Except.ok ())
        ⟨[⟨1, "BUS1", "Tm", ⟨5, 0⟩⟩], [], [], []⟩ :
      Except Unit Unit × NetworkState).2 =
      ⟨[], [], [], []⟩ ∧
    (⟨[⟨1, "BUS1", "Tm", ⟨5, 0⟩⟩], [], [], []⟩ : NetworkState) ≠
      ⟨[], [], [], []⟩ := by
  constructor
  · rfl
  · intro h
    simpa using congrArg (fun s => s.loads.length) h

/-- C9 (amended): the release action runs on every exit path of the `with`
block (the final state does not depend on whether the body returned or
raised), and the round trip restores the exact prior state provided no
pre-existing load or machine carries the reserved id `"Tm"` and, for element
disables, the element was in service beforehand (which the callers guarantee
through their `is_enabled()` guards). -/
theorem scoped_mutation_roundtrip {E A : Type} (s : NetworkState)
    (busNumber : Int) (power : Mva) (t : Trafo) (b : Branch)
    (body body' : NetworkState → Except E A)
    (hload : ∀ l ∈ s.loads, l.load_id ≠ TEMP_ID)
    (hmachine : ∀ m ∈ s.machines, m.machine_id ≠ TEMP_ID)
    (htrafo : ∀ p ∈ s.trafoStatus, p.1 = t → p.2 = true)
    (hbranch : ∀ p ∈ s.branchStatus, p.1 = b → p.2 = true) :
    (withScoped (temporaryBusLoadEnter busNumber power) temporaryBusLoadExit body s).2
        = s ∧
    (withScoped (temporaryBusMachineEnter busNumber power) temporaryBusMachineExit
        body s).2 = s ∧
    (withScoped (disableTrafoEnter t) (disableTrafoExit t) body s).2 = s ∧
    (withScoped (disableBranchEnter b) (disableBranchExit b) body s).2 = s ∧
    (withScoped (temporaryBusLoadEnter busNumber power) temporaryBusLoadExit body s).2
        = (withScoped (temporaryBusLoadEnter busNumber power) temporaryBusLoadExit
            body' s).2 := by
  refine ⟨?_, ?_, ?_, ?_, rfl⟩
  · rw [withScoped, temporaryBusLoadExit, temporaryBusLoadEnter]
    rcases s with ⟨ls, ms, bs, ts⟩
    simp only [NetworkState.mk.injEq, and_true, true_and]
    exact filter_append_singleton_of_all _ ls _
      (by intro x hx; simpa using hload x hx) (by simp [TEMP_ID])
  · rw [withScoped, temporaryBusMachineExit, temporaryBusMachineEnter]
    rcases s with ⟨ls, ms, bs, ts⟩
    simp only [NetworkState.mk.injEq, and_true, true_and]
    exact filter_append_singleton_of_all _ ms _
      (by intro x hx; simpa using hmachine x hx) (by simp [TEMP_ID])
  · rw [withScoped, disableTrafoExit, disableTrafoEnter]
    rcases s with ⟨ls, ms, bs, ts⟩
    simp only [NetworkState.mk.injEq, and_true, true_and]
    exact map_restore_of_all t ts htrafo
  · rw [withScoped, disableBranchExit, disableBranchEnter]
    rcases s with ⟨ls, ms, bs, ts⟩
    simp only [NetworkState.mk.injEq, and_true, true_and]
    exact map_restore_of_all b bs hbranch

/-- C9 witness: the amended theorem applied to a state with one ordinary load
and one in-service transformer, with a normal body and a raising body. -/
theorem scoped_mutation_roundtrip_witness :
    (withScoped (temporaryBusLoadEnter 1 ⟨3, 0⟩) temporaryBusLoadExit
        (fun _ => (Except.error () : Except Unit Unit))
        ⟨[⟨1, "BUS1", "1", ⟨5, 0⟩⟩], [], [], [(⟨1, 2, "1"⟩, true)]⟩).2 =
      ⟨[⟨1, "BUS1", "1", ⟨5, 0⟩⟩], [], [], [(⟨1, 2, "1"⟩, true)]⟩ ∧
    (withScoped (disableTrafoEnter ⟨1, 2, "1"⟩) (disableTrafoExit ⟨1, 2, "1"⟩)
        (fun _ => (Except.ok () : Except Unit Unit))
        ⟨[⟨1, "BUS1", "1", ⟨5, 0⟩⟩], [], [], [(⟨1, 2, "1"⟩, true)]⟩).2 =
      ⟨[⟨1, "BUS1", "1", ⟨5, 0⟩⟩], [], [], [(⟨1, 2, "1"⟩, true)]⟩ := by
  have h := scoped_mutation_roundtrip
    (⟨[⟨1, "BUS1", "1", ⟨5, 0⟩⟩], [], [], [(⟨1, 2, "1"⟩, true)]⟩ : NetworkState)
    1 ⟨3, 0⟩ ⟨1, 2, "1"⟩ ⟨1, 2, "1"⟩
    (fun _ => (Except.error () : Except Unit Unit))
    (fun _ => (Except.ok () : Except Unit Unit))
    (by intro l hl; simp at hl; simp [hl, TEMP_ID])
    (by intro m hm; simp at hm)
    (by intro p hp hp1; simp at hp; simp [hp])
    (by intro p hp hp1; simp at hp)
  have h2 := scoped_mutation_roundtrip
    (⟨[⟨1, "BUS1", "1", ⟨5, 0⟩⟩], [], [], [(⟨1, 2, "1"⟩, true)]⟩ : NetworkState)
    1 ⟨3, 0⟩ ⟨1, 2, "1"⟩ ⟨1, 2, "1"⟩
    (fun _ => (Except.ok () : Except Unit Unit))
    (fun _ => (Except.ok () : Except Unit Unit))
    (by intro l hl; simp at hl; simp [hl, TEMP_ID])
    (by intro m hm; simp at hm)
    (by intro p hp hp1; simp at hp; simp [hp])
    (by intro p hp hp1; simp at hp)
  exact ⟨h.1, h2.2.2.1⟩

/-- `ConnectionPower` from `gridcapacity/config.py`. -/
structure ConnectionPower where
  p_mw : ℚ
  pf : ℚ
deriving DecidableEq, Repr

/-- `BusConnection` from `gridcapacity/config.py`. -/
structure BusConnection where
  load : Option ConnectionPower
  gen : Option ConnectionPower
deriving DecidableEq, Repr

/-- `sort_connection_scenario` from `gridcapacity/capacity_analysis.py`: the
scenario's entries sorted ascending by integer bus number (the Python sorts
the dict items with `key=lambda kv: int(kv[0])`; keys are represented here as
integers directly). -/
def sort_connection_scenario (scenario : List (Int × BusConnection)) :
    List (Int × BusConnection) :=
  scenario.mergeSort fun a b => a.1 ≤ b.1

/-- The `for bus in Buses()` loop of
`CapacityAnalyser.apply_connection_scenario`: one pass over the case's bus
numbers holding one current connection; the connection's loads/generators are
added only when a bus with the connection's number is reached, and only then
does the iterator advance to the next connection.  The returned list is the
sequence of connections actually applied, in order. -/
def applyConnectionsLoop :
    List Int → List (Int × BusConnection) → List (Int × BusConnection)
  | [], _ => []
  | _ :: _, [] => []
  | busNumber :: restBuses, (connNumber, conn) :: restConns =>
    if busNumber = connNumber then
      (connNumber, conn) :: applyConnectionsLoop restBuses restConns
    else
      applyConnectionsLoop restBuses ((connNumber, conn) :: restConns)

/-- `CapacityAnalyser.apply_connection_scenario`: sort the scenario, then run
the single bus pass. -/
def apply_connection_scenario (busNumbers : List Int)
    (scenario : List (Int × BusConnection)) : List (Int × BusConnection) :=
  applyConnectionsLoop busNumbers (sort_connection_scenario scenario)

theorem applyConnectionsLoop_take (busNumbers : List Int) :
    ∀ conns : List (Int × BusConnection),
    ∃ k, applyConnectionsLoop busNumbers conns = conns.take k := by
  induction busNumbers with
  | nil => intro conns; exact ⟨0, by cases conns <;> rfl⟩
  | cons bus rest ih =>
    intro conns
    rcases conns with _ | ⟨⟨connNumber, conn⟩, restConns⟩
    · exact ⟨0, rfl⟩
    · rw [applyConnectionsLoop]
      by_cases hb : bus = connNumber
      · obtain ⟨k, hk⟩ := ih restConns
        exact ⟨k + 1, by simp [hb, hk]⟩
      · obtain ⟨k, hk⟩ := ih ((connNumber, conn) :: restConns)
        exact ⟨k, by simp [hb, hk]⟩

theorem applyConnectionsLoop_mem (busNumbers : List Int) :
    ∀ (conns : List (Int × BusConnection)) (p : Int × BusConnection),
    p ∈ applyConnectionsLoop busNumbers conns → p ∈ conns ∧ p.1 ∈ busNumbers := by
  induction busNumbers with
  | nil => intro conns p hp; simp [applyConnectionsLoop] at hp
  | cons bus rest ih =>
    intro conns p hp
    rcases conns with _ | ⟨⟨connNumber, conn⟩, restConns⟩
    · simp [applyConnectionsLoop] at hp
    · rw [applyConnectionsLoop] at hp
      by_cases hb : bus = connNumber
      · rw [if_pos hb] at hp
        rcases List.mem_cons.mp hp with heq | htail
        · subst heq
          simp [hb]
        · obtain ⟨h1, h2⟩ := ih restConns p htail
          exact ⟨List.mem_cons_of_mem _ h1, List.mem_cons_of_mem _ h2⟩
      · rw [if_neg hb] at hp
        obtain ⟨h1, h2⟩ := ih ((connNumber, conn) :: restConns) p hp
        exact ⟨h1, List.mem_cons_of_mem _ h2⟩

theorem applyConnectionsLoop_blocked :
    ∀ (busNumbers : List Int) (c : Int × BusConnection)
      (cs : List (Int × BusConnection)), c.1 ∉ busNumbers →
    applyConnectionsLoop busNumbers (c :: cs) = [] := by
  intro busNumbers
  induction busNumbers with
  | nil => intro c cs _; rfl
  | cons bus rest ih =>
    intro c cs hc
    rcases c with ⟨connNumber, conn⟩
    rw [applyConnectionsLoop]
    have hb : bus ≠ connNumber := by
      intro h
      exact hc (by simp [h])
    rw [if_neg hb]
    exact ih _ cs (by intro h; exact hc (List.mem_cons_of_mem _ h))

/-- C10: applying a connection scenario first sorts the connections ascending
by integer bus number (a permutation of the given entries), then makes one
pass over the bus enumeration: the applied connections form a prefix of the
sorted list, each applied connection is a scenario entry whose bus number
occurs in the enumeration, and whenever the current connection's bus number
does not occur in the remaining bus enumeration, neither it nor any later
connection is applied. -/
theorem apply_connection_scenario_single_pass (busNumbers : List Int)
    (scenario : List (Int × BusConnection)) (c : Int × BusConnection)
    (cs : List (Int × BusConnection)) :
    List.Pairwise (fun a b => a.1 ≤ b.1) (sort_connection_scenario scenario) ∧
    (sort_connection_scenario scenario).Perm scenario ∧
    (∃ k, apply_connection_scenario busNumbers scenario =
      (sort_connection_scenario scenario).take k) ∧
    (∀ p ∈ apply_connection_scenario busNumbers scenario,
      p ∈ sort_connection_scenario scenario ∧ p.1 ∈ busNumbers) ∧
    (c.1 ∉ busNumbers → applyConnectionsLoop busNumbers (c :: cs) = []) := by
  refine ⟨?_, List.mergeSort_perm scenario _, applyConnectionsLoop_take _ _,
    fun p hp => applyConnectionsLoop_mem _ _ p hp,
    applyConnectionsLoop_blocked busNumbers c cs⟩
  have h := @List.sorted_mergeSort (Int × BusConnection)
    (fun a b => a.1 ≤ b.1)
    (by intro a b c'; simp only [decide_eq_true_eq]; omega)
    (by intro a b; simpa using Int.le_total a.1 b.1) scenario
  exact h.imp (by intro a b hab; simpa using hab)

/-- C10 witness: the theorem applied to buses `[1, 2, 3]` and an unsorted
two-connection scenario; the connection at the absent bus 7 blocks the rest. -/
theorem apply_connection_scenario_single_pass_witness :
    ((7 : Int) ∉ ([1, 2, 3] : List Int) ∧
      applyConnectionsLoop [1, 2, 3] [(7, ⟨none, none⟩), (1, ⟨none, none⟩)] = []) ∧
    (sort_connection_scenario [(3, ⟨none, none⟩), (1, ⟨none, none⟩)]).Perm
      [(3, ⟨none, none⟩), (1, ⟨none, none⟩)] := by
  refine ⟨⟨by decide, ?_⟩, ?_⟩
  · exact (apply_connection_scenario_single_pass [1, 2, 3] []
      (7, ⟨none, none⟩) [(1, ⟨none, none⟩)]).2.2.2.2 (by decide)
  · exact (apply_connection_scenario_single_pass [1, 2, 3]
      [(3, ⟨none, none⟩), (1, ⟨none, none⟩)] (7, ⟨none, none⟩) []).2.1

end Gridcapacity
